import Mathlib

/-!
A shallow embedding of the `macro-rs` record/playback engine
(`src/macros.rs`, `src/utils.rs`).

Modelling conventions:
* `Instant`s are modelled as `Nat` timestamps in milliseconds;
  `Instant::duration_since` (which saturates at zero) followed by
  `as_millis` is Nat subtraction (`Macro.time_since`).
* The `Arc<Mutex<...>>` fields of the Rust `Macro` struct are plain fields
  of a state record; each operation is a pure state transformer
  parameterised by the current time and by the values the external
  capabilities (device query, device events) would deliver.
* The `enigo` simulation handle is modelled by the trace of calls the code
  makes against it (`SimEvent`), including the `eprintln!` diagnostic for
  an unknown mouse button and the `sleep` call of the playback loop.
* `device_query::MouseButton` is `usize`, modelled as `Nat`.
-/

/-- `MouseMoveAction` from src/macros.rs: signed pointer deltas. -/
structure MouseMoveAction where
  delta_x : Int
  delta_y : Int
deriving DecidableEq, Repr

/-- `MouseButtonAction` from src/macros.rs (`MouseButton` = `usize`). -/
structure MouseButtonAction where
  button : Nat
  pressed : Bool
deriving DecidableEq, Repr

/-- `KeyAction` from src/macros.rs. -/
structure KeyAction where
  key : String
  pressed : Bool
deriving DecidableEq, Repr

/-- `UserAction` from src/macros.rs. -/
inductive UserAction where
  | MouseMove (a : MouseMoveAction)
  | MouseButton (a : MouseButtonAction)
  | Key (a : KeyAction)
deriving DecidableEq, Repr

/-- `MacroAction` from src/macros.rs: an action with its millisecond offset. -/
structure MacroAction where
  action : UserAction
  offset : Nat
deriving DecidableEq, Repr

/-- `MacroMetadata` from src/macros.rs. -/
structure MacroMetadata where
  «end» : Nat
  cursor_pos : Int × Int
deriving DecidableEq, Repr

/-- The state held by the Rust `Macro` struct (the `enigo` handle is
modelled separately, by the trace of calls playback makes on it). -/
structure Macro where
  start_time : Nat
  is_recording : Bool
  last_pos : Int × Int
  actions : List MacroAction
  metadata : MacroMetadata
deriving DecidableEq, Repr

/-- `enigo::Key`, restricted to the image of the `remap` table in
src/utils.rs. -/
inductive Key where
  | F1 | F2 | F3 | F4 | F5 | F6 | F7 | F8 | F9 | F10 | F11 | F12
  | Num0 | Num1 | Num2 | Num3 | Num4 | Num5 | Num6 | Num7 | Num8 | Num9
  | A | B | C | D | E | F | G | H | I | J | K | L | M
  | N | O | P | Q | R | S | T | U | V | W | X | Y | Z
  | Escape | Tab | CapsLock | Shift | Control | Alt | Space
  | UpArrow | RightArrow | DownArrow | LeftArrow
  | Return | Backspace | Delete | Home | PageUp | PageDown | End
  | Unicode (c : Char) | Divide
  | Numpad0 | Numpad1 | Numpad2 | Numpad3 | Numpad4
  | Numpad5 | Numpad6 | Numpad7 | Numpad8 | Numpad9
deriving Repr

/-- Injection of `Key` into a type with cheap decidable equality
(deriving `DecidableEq` directly blows the elaborator up on 80
constructors). -/
def Key.toSum : Key → Nat ⊕ Char
  | .F1 => .inl 0
  | .F2 => .inl 1
  | .F3 => .inl 2
  | .F4 => .inl 3
  | .F5 => .inl 4
  | .F6 => .inl 5
  | .F7 => .inl 6
  | .F8 => .inl 7
  | .F9 => .inl 8
  | .F10 => .inl 9
  | .F11 => .inl 10
  | .F12 => .inl 11
  | .Num0 => .inl 12
  | .Num1 => .inl 13
  | .Num2 => .inl 14
  | .Num3 => .inl 15
  | .Num4 => .inl 16
  | .Num5 => .inl 17
  | .Num6 => .inl 18
  | .Num7 => .inl 19
  | .Num8 => .inl 20
  | .Num9 => .inl 21
  | .A => .inl 22
  | .B => .inl 23
  | .C => .inl 24
  | .D => .inl 25
  | .E => .inl 26
  | .F => .inl 27
  | .G => .inl 28
  | .H => .inl 29
  | .I => .inl 30
  | .J => .inl 31
  | .K => .inl 32
  | .L => .inl 33
  | .M => .inl 34
  | .N => .inl 35
  | .O => .inl 36
  | .P => .inl 37
  | .Q => .inl 38
  | .R => .inl 39
  | .S => .inl 40
  | .T => .inl 41
  | .U => .inl 42
  | .V => .inl 43
  | .W => .inl 44
  | .X => .inl 45
  | .Y => .inl 46
  | .Z => .inl 47
  | .Escape => .inl 48
  | .Tab => .inl 49
  | .CapsLock => .inl 50
  | .Shift => .inl 51
  | .Control => .inl 52
  | .Alt => .inl 53
  | .Space => .inl 54
  | .UpArrow => .inl 55
  | .RightArrow => .inl 56
  | .DownArrow => .inl 57
  | .LeftArrow => .inl 58
  | .Return => .inl 59
  | .Backspace => .inl 60
  | .Delete => .inl 61
  | .Home => .inl 62
  | .PageUp => .inl 63
  | .PageDown => .inl 64
  | .End => .inl 65
  | .Divide => .inl 66
  | .Numpad0 => .inl 67
  | .Numpad1 => .inl 68
  | .Numpad2 => .inl 69
  | .Numpad3 => .inl 70
  | .Numpad4 => .inl 71
  | .Numpad5 => .inl 72
  | .Numpad6 => .inl 73
  | .Numpad7 => .inl 74
  | .Numpad8 => .inl 75
  | .Numpad9 => .inl 76
  | .Unicode c => .inr c

/-- Left inverse of `Key.toSum`. -/
def Key.ofSum : Nat ⊕ Char → Key
  | .inr c => .Unicode c
  | .inl 0 => .F1
  | .inl 1 => .F2
  | .inl 2 => .F3
  | .inl 3 => .F4
  | .inl 4 => .F5
  | .inl 5 => .F6
  | .inl 6 => .F7
  | .inl 7 => .F8
  | .inl 8 => .F9
  | .inl 9 => .F10
  | .inl 10 => .F11
  | .inl 11 => .F12
  | .inl 12 => .Num0
  | .inl 13 => .Num1
  | .inl 14 => .Num2
  | .inl 15 => .Num3
  | .inl 16 => .Num4
  | .inl 17 => .Num5
  | .inl 18 => .Num6
  | .inl 19 => .Num7
  | .inl 20 => .Num8
  | .inl 21 => .Num9
  | .inl 22 => .A
  | .inl 23 => .B
  | .inl 24 => .C
  | .inl 25 => .D
  | .inl 26 => .E
  | .inl 27 => .F
  | .inl 28 => .G
  | .inl 29 => .H
  | .inl 30 => .I
  | .inl 31 => .J
  | .inl 32 => .K
  | .inl 33 => .L
  | .inl 34 => .M
  | .inl 35 => .N
  | .inl 36 => .O
  | .inl 37 => .P
  | .inl 38 => .Q
  | .inl 39 => .R
  | .inl 40 => .S
  | .inl 41 => .T
  | .inl 42 => .U
  | .inl 43 => .V
  | .inl 44 => .W
  | .inl 45 => .X
  | .inl 46 => .Y
  | .inl 47 => .Z
  | .inl 48 => .Escape
  | .inl 49 => .Tab
  | .inl 50 => .CapsLock
  | .inl 51 => .Shift
  | .inl 52 => .Control
  | .inl 53 => .Alt
  | .inl 54 => .Space
  | .inl 55 => .UpArrow
  | .inl 56 => .RightArrow
  | .inl 57 => .DownArrow
  | .inl 58 => .LeftArrow
  | .inl 59 => .Return
  | .inl 60 => .Backspace
  | .inl 61 => .Delete
  | .inl 62 => .Home
  | .inl 63 => .PageUp
  | .inl 64 => .PageDown
  | .inl 65 => .End
  | .inl 66 => .Divide
  | .inl 67 => .Numpad0
  | .inl 68 => .Numpad1
  | .inl 69 => .Numpad2
  | .inl 70 => .Numpad3
  | .inl 71 => .Numpad4
  | .inl 72 => .Numpad5
  | .inl 73 => .Numpad6
  | .inl 74 => .Numpad7
  | .inl 75 => .Numpad8
  | .inl 76 => .Numpad9
  | .inl _ => .F1

theorem Key.ofSum_toSum (k : Key) : Key.ofSum k.toSum = k := by
  cases k <;> rfl

theorem Key.toSum_injective : Function.Injective Key.toSum := by
  intro a b h
  rw [← Key.ofSum_toSum a, ← Key.ofSum_toSum b, h]

instance : DecidableEq Key := fun a b =>
  decidable_of_iff (a.toSum = b.toSum)
    ⟨fun h => Key.toSum_injective h, fun h => congrArg Key.toSum h⟩

/-- `enigo::Button` (the constructors the playback code uses). -/
inductive Button where
  | Left | Right | Middle | Back | Forward
deriving DecidableEq, Repr

/-- `enigo::Direction` (the constructors the playback code uses). -/
inductive Direction where
  | Press | Release
deriving DecidableEq, Repr

/-- `utils::remap` from src/utils.rs: key names captured from
`device_query` (via `key.to_string()`, i.e. the `Keycode` variant names)
to `enigo` keys.  `Keycode::from_str` failure and the final `_ => None`
arm of the Rust match are both the catch-all `none`. -/
def remap (key_name : String) : Option Key :=
  match key_name with
  | "F1" => some .F1
  | "F2" => some .F2
  | "F3" => some .F3
  | "F4" => some .F4
  | "F5" => some .F5
  | "F6" => some .F6
  | "F7" => some .F7
  | "F8" => some .F8
  | "F9" => some .F9
  | "F10" => some .F10
  | "F11" => some .F11
  | "F12" => some .F12
  | "Key0" => some .Num0
  | "Key1" => some .Num1
  | "Key2" => some .Num2
  | "Key3" => some .Num3
  | "Key4" => some .Num4
  | "Key5" => some .Num5
  | "Key6" => some .Num6
  | "Key7" => some .Num7
  | "Key8" => some .Num8
  | "Key9" => some .Num9
  | "A" => some .A
  | "B" => some .B
  | "C" => some .C
  | "D" => some .D
  | "E" => some .E
  | "F" => some .F
  | "G" => some .G
  | "H" => some .H
  | "I" => some .I
  | "J" => some .J
  | "K" => some .K
  | "L" => some .L
  | "M" => some .M
  | "N" => some .N
  | "O" => some .O
  | "P" => some .P
  | "Q" => some .Q
  | "R" => some .R
  | "S" => some .S
  | "T" => some .T
  | "U" => some .U
  | "V" => some .V
  | "W" => some .W
  | "X" => some .X
  | "Y" => some .Y
  | "Z" => some .Z
  | "Escape" => some .Escape
  | "Tab" => some .Tab
  | "CapsLock" => some .CapsLock
  | "LShift" => some .Shift
  | "RShift" => some .Shift
  | "LControl" => some .Control
  | "RControl" => some .Control
  | "LAlt" => some .Alt
  | "RAlt" => some .Alt
  | "Space" => some .Space
  | "Up" => some .UpArrow
  | "Right" => some .RightArrow
  | "Down" => some .DownArrow
  | "Left" => some .LeftArrow
  | "Enter" => some .Return
  | "Backspace" => some .Backspace
  | "Delete" => some .Delete
  | "Home" => some .Home
  | "PageUp" => some .PageUp
  | "PageDown" => some .PageDown
  | "End" => some .End
  | "Grave" => some (.Unicode (Char.ofNat 96))
  | "Minus" => some (.Unicode (Char.ofNat 45))
  | "NumpadSubtract" => some (.Unicode (Char.ofNat 45))
  | "Equal" => some (.Unicode (Char.ofNat 61))
  | "LeftBracket" => some (.Unicode (Char.ofNat 91))
  | "RightBracket" => some (.Unicode (Char.ofNat 93))
  | "Comma" => some (.Unicode (Char.ofNat 44))
  | "Dot" => some (.Unicode (Char.ofNat 46))
  | "Semicolon" => some (.Unicode (Char.ofNat 59))
  | "Apostrophe" => some (.Unicode (Char.ofNat 39))
  | "Slash" => some .Divide
  | "NumpadDivide" => some .Divide
  | "BackSlash" => some (.Unicode (Char.ofNat 92))
  | "Numpad0" => some .Numpad0
  | "Numpad1" => some .Numpad1
  | "Numpad2" => some .Numpad2
  | "Numpad3" => some .Numpad3
  | "Numpad4" => some .Numpad4
  | "Numpad5" => some .Numpad5
  | "Numpad6" => some .Numpad6
  | "Numpad7" => some .Numpad7
  | "Numpad8" => some .Numpad8
  | "Numpad9" => some .Numpad9
  | _ => none

namespace Macro

/-- `TimeSince::time_since`: `self.duration_since(start).as_millis()` with
`self = now`; `duration_since` saturates at zero, hence Nat subtraction. -/
def time_since (now start : Nat) : Nat :=
  now - start

/-- `Macro::new` at creation time `now` (`Instant::now()` stored in
`start_time`, flag false, last position `(0,0)`, empty log, default
metadata). -/
def new (now : Nat) : Macro :=
  { start_time := now
    is_recording := false
    last_pos := (0, 0)
    actions := []
    metadata := { «end» := 0, cursor_pos := (0, 0) } }

/-- `Macro::record` called at time `now` when the pointer-query capability
reports `cursorPos`: sets the flag, clears the log, stores the sampled
position in `metadata.cursor_pos` and in the last-position cell.  The
local `start = Instant::now()` that the callbacks capture is the `now`
argument; note that the `start_time` field is NOT updated. -/
def record (now : Nat) (cursorPos : Int × Int) (m : Macro) : Macro :=
  let _start := now
  { m with
    is_recording := true
    actions := []
    metadata := { m.metadata with cursor_pos := cursorPos }
    last_pos := cursorPos }

/-- The `on_key_up` callback registered by `record`: `sessionStart` is the
local `start` the closure captured, `now` the `Instant::now()` of the
invocation. -/
def on_key_up (now sessionStart : Nat) (key : String) (m : Macro) : Macro :=
  { m with actions := m.actions ++
      [{ action := .Key { key := key, pressed := false },
         offset := time_since now sessionStart }] }

/-- The `on_key_down` callback registered by `record`. -/
def on_key_down (now sessionStart : Nat) (key : String) (m : Macro) : Macro :=
  { m with actions := m.actions ++
      [{ action := .Key { key := key, pressed := true },
         offset := time_since now sessionStart }] }

/-- The `on_mouse_up` callback registered by `record`. -/
def on_mouse_up (now sessionStart : Nat) (button : Nat) (m : Macro) : Macro :=
  { m with actions := m.actions ++
      [{ action := .MouseButton { button := button, pressed := false },
         offset := time_since now sessionStart }] }

/-- The `on_mouse_down` callback registered by `record`. -/
def on_mouse_down (now sessionStart : Nat) (button : Nat) (m : Macro) : Macro :=
  { m with actions := m.actions ++
      [{ action := .MouseButton { button := button, pressed := true },
         offset := time_since now sessionStart }] }

/-- The `on_mouse_move` callback registered by `record`: computes the
delta against the shared last-position cell, updates the cell to the new
absolute position and appends a `MouseMove` action. -/
def on_mouse_move (now sessionStart : Nat) (pos : Int × Int) (m : Macro) : Macro :=
  let lp := m.last_pos
  { m with
    last_pos := pos
    actions := m.actions ++
      [{ action := .MouseMove { delta_x := pos.1 - lp.1, delta_y := pos.2 - lp.2 },
         offset := time_since now sessionStart }] }

/-- `Macro::stop_recording` at time `now`: clears the flag and sets
`metadata.end = Instant::now().time_since(*self.start_time)` — measured
from the `start_time` FIELD, which `record` never updated. -/
def stop_recording (now : Nat) (m : Macro) : Macro :=
  { m with
    is_recording := false
    metadata := { m.metadata with «end» := time_since now m.start_time } }

end Macro

/-- A device event as delivered by the `device_query` hook capability to
one of the five registered callbacks. -/
inductive DeviceEvent where
  | keyUp (key : String)
  | keyDown (key : String)
  | mouseUp (button : Nat)
  | mouseDown (button : Nat)
  | mouseMove (pos : Int × Int)
deriving DecidableEq, Repr

namespace Macro

/-- Dispatch one timestamped device event to the callback `record`
registered for its class. -/
def applyEvent (sessionStart : Nat) (m : Macro) (te : Nat × DeviceEvent) : Macro :=
  match te.2 with
  | .keyUp key => on_key_up te.1 sessionStart key m
  | .keyDown key => on_key_down te.1 sessionStart key m
  | .mouseUp b => on_mouse_up te.1 sessionStart b m
  | .mouseDown b => on_mouse_down te.1 sessionStart b m
  | .mouseMove p => on_mouse_move te.1 sessionStart p m

/-- Deliver a sequence of timestamped device events in arrival order
(the order in which the callbacks acquired the log mutex). -/
def runCallbacks (sessionStart : Nat) (events : List (Nat × DeviceEvent)) (m : Macro) : Macro :=
  events.foldl (applyEvent sessionStart) m

/-- One whole recording session: `record` at time `recordT` (pointer at
`pos`), the device events in arrival order, then `stop_recording` at
`stopT`. -/
def runSession (recordT : Nat) (pos : Int × Int) (events : List (Nat × DeviceEvent))
    (stopT : Nat) (m : Macro) : Macro :=
  stop_recording stopT (runCallbacks recordT events (record recordT pos m))

end Macro

/-- One observable step `playback` takes: a call on the `enigo` handle, a
line on the diagnostic stream (`eprintln!`), or a `sleep`. -/
inductive SimEvent where
  | moveMouseAbs (x y : Int)
  | moveMouseRel (dx dy : Int)
  | button (b : Button) (d : Direction)
  | key (k : Key) (d : Direction)
  | logUnknownButton (b : Nat)
  | sleepMicros (n : Nat)
deriving DecidableEq, Repr

namespace Macro

/-- The body of the `match &action.action` in `Macro::playback`: the
`enigo`/diagnostic calls made for one matched action.  An unknown mouse
button hits the `eprintln!` + `continue` arm; a key name `remap` cannot
translate makes no call at all. -/
def dispatchAction (a : MacroAction) : List SimEvent :=
  match a.action with
  | .MouseMove mouse => [.moveMouseRel mouse.delta_x mouse.delta_y]
  | .MouseButton mouse =>
    let direction := if mouse.pressed then Direction.Press else Direction.Release
    match mouse.button with
    | 1 => [.button .Left direction]
    | 2 => [.button .Right direction]
    | 3 => [.button .Middle direction]
    | 4 => [.button .Back direction]
    | 5 => [.button .Forward direction]
    | b => [.logUnknownButton b]
  | .Key key =>
    let direction := if key.pressed then Direction.Press else Direction.Release
    match remap key.key with
    | some k => [.key k direction]
    | none => []

/-- The `loop` of `Macro::playback`, with the successive values of
`Instant::now().time_since(start)` it would observe abstracted into the
poll `schedule` (one sample per iteration; the real loop samples every
500 microseconds, so consecutive samples differ by 0 or 1 ms).  Each
iteration either breaks because `offset >= metadata.end`, or yields the
sub-list of logged actions whose offset equals the sample.  A finite
schedule models a finite prefix of the observations. -/
def playbackIters (endT : Nat) (actions : List MacroAction) : List Nat → List (List MacroAction)
  | [] => []
  | s :: rest =>
    if endT ≤ s then []
    else actions.filter (fun a => a.offset = s) :: playbackIters endT actions rest

/-- The actions `playback` dispatches, in dispatch order, over a given
poll schedule. -/
def playbackDispatches (endT : Nat) (actions : List MacroAction) (schedule : List Nat) :
    List MacroAction :=
  (playbackIters endT actions schedule).flatten

/-- The full observable trace of `Macro::playback` over a poll schedule:
first `move_mouse(cursor_pos, Abs)`, then per loop iteration the dispatch
calls of the matched actions followed by `sleep(500µs)`. -/
def playbackTrace (md : MacroMetadata) (actions : List MacroAction) (schedule : List Nat) :
    List SimEvent :=
  .moveMouseAbs md.cursor_pos.1 md.cursor_pos.2 ::
    ((playbackIters md.«end» actions schedule).map
      (fun acts => acts.flatMap dispatchAction ++ [.sleepMicros 500])).flatten

end Macro

/-- Modelled from the spec (§4.3 Playback Scheduler), the loop part:
"loop: compute elapsed time since playback start; if elapsed ≥ `end`,
terminate; otherwise select every action in the log whose offset exactly
equals current elapsed time and dispatch each in log order; then sleep a
fixed short interval (e.g. 500 microseconds) and repeat." -/
def specPlaybackLoop (endT : Nat) (actions : List MacroAction) : List Nat → List SimEvent
  | [] => []
  | elapsed :: rest =>
    if elapsed ≥ endT then []
    else
      (actions.filter (fun a => a.offset = elapsed)).flatMap Macro.dispatchAction ++
        SimEvent.sleepMicros 500 :: specPlaybackLoop endT actions rest

/-- Modelled from the spec (§4.3): "move the simulated pointer to the
absolute initial position. Then loop ..." -/
def specPlaybackTrace (md : MacroMetadata) (actions : List MacroAction)
    (schedule : List Nat) : List SimEvent :=
  .moveMouseAbs md.cursor_pos.1 md.cursor_pos.2 :: specPlaybackLoop md.«end» actions schedule

/-! ## Serialization adapter

The repository persists through `serde_json` (`Macro::save`, the tests).
`Json` is the serde_json value tree; the encoders below follow the
derived `Serialize` impls (fields in declaration order, enums externally
tagged, tuples as arrays) and the hand-written `Serialize for Macro`
(a 2-field struct, i.e. a JSON object `actions`/`metadata`).  The
decoders follow the derived `Deserialize` impls and the hand-written
`MacroVisitor`. -/

/-- A serde_json value. -/
inductive Json where
  | null
  | bool (b : Bool)
  | num (n : Int)
  | str (s : String)
  | arr (elems : List Json)
  | obj (fields : List (String × Json))

/-- A serde deserialization error (`serde::de::Error` constructors the
code can hit; `panic` models the `unwrap()` on line 367/368 of
src/macros.rs aborting instead of returning). -/
inductive DeError where
  | invalidType (unexpected expected : String)
  | invalidValue (msg : String)
  | invalidLength (len : Nat) (expected : String)
  | unknownField (field : String)
  | unknownVariant (variant : String)
  | missingField (field : String)
  | panic (msg : String)
deriving DecidableEq, Repr

/-- Derived `Serialize` for `MouseMoveAction`. -/
def encodeMouseMove (a : MouseMoveAction) : Json :=
  .obj [("delta_x", .num a.delta_x), ("delta_y", .num a.delta_y)]

/-- Derived `Serialize` for `MouseButtonAction`. -/
def encodeMouseButton (a : MouseButtonAction) : Json :=
  .obj [("button", .num a.button), ("pressed", .bool a.pressed)]

/-- Derived `Serialize` for `KeyAction`. -/
def encodeKeyAction (a : KeyAction) : Json :=
  .obj [("key", .str a.key), ("pressed", .bool a.pressed)]

/-- Derived `Serialize` for `UserAction` (externally tagged enum). -/
def encodeUserAction : UserAction → Json
  | .MouseMove a => .obj [("MouseMove", encodeMouseMove a)]
  | .MouseButton a => .obj [("MouseButton", encodeMouseButton a)]
  | .Key a => .obj [("Key", encodeKeyAction a)]

/-- Derived `Serialize` for `MacroAction`. -/
def encodeMacroAction (a : MacroAction) : Json :=
  .obj [("action", encodeUserAction a.action), ("offset", .num a.offset)]

/-- `Vec<MacroAction>` serializes as a JSON array. -/
def encodeActions (actions : List MacroAction) : Json :=
  .arr (actions.map encodeMacroAction)

/-- Derived `Serialize` for `MacroMetadata` (the `(i32, i32)` tuple
serializes as a 2-element array). -/
def encodeMetadata (md : MacroMetadata) : Json :=
  .obj [("end", .num md.«end»),
        ("cursor_pos", .arr [.num md.cursor_pos.1, .num md.cursor_pos.2])]

/-- The hand-written `Serialize for Macro` (src/macros.rs lines 306-318):
a struct with exactly the two fields `actions` and `metadata`, which
serde_json emits as a JSON object. -/
def serializeMacro (m : Macro) : Json :=
  .obj [("actions", encodeActions m.actions), ("metadata", encodeMetadata m.metadata)]

/-- `bool` deserialization. -/
def deBool : Json → Except DeError Bool
  | .bool b => .ok b
  | _ => .error (.invalidType "other" "a boolean")

/-- `String` deserialization. -/
def deString : Json → Except DeError String
  | .str s => .ok s
  | _ => .error (.invalidType "other" "a string")

/-- `u64`/`usize` deserialization (negative numbers are rejected). -/
def deU64 : Json → Except DeError Nat
  | .num n => if 0 ≤ n then .ok n.toNat else .error (.invalidValue "negative integer for u64")
  | _ => .error (.invalidType "other" "u64")

/-- `i32` deserialization (the i32 range is not modelled; capture only
ever produces in-range values). -/
def deI32 : Json → Except DeError Int
  | .num n => .ok n
  | _ => .error (.invalidType "other" "i32")

/-- `(i32, i32)` deserialization: a sequence of exactly two elements. -/
def dePairI32 : Json → Except DeError (Int × Int)
  | .arr [a, b] => do
    let x ← deI32 a
    let y ← deI32 b
    return (x, y)
  | .arr elems => .error (.invalidLength elems.length "a tuple of size 2")
  | _ => .error (.invalidType "other" "a tuple of size 2")

/-- Field access of the derived struct deserializers: first occurrence
wins, absence is a `missing field` error (serde's derive ignores unknown
fields by default, which lookup models). -/
def getField (fields : List (String × Json)) (name : String) : Except DeError Json :=
  match fields.lookup name with
  | some v => .ok v
  | none => .error (.missingField name)

/-- Derived `Deserialize` for `MouseMoveAction`. -/
def deMouseMove : Json → Except DeError MouseMoveAction
  | .obj fields => do
    let dx ← getField fields "delta_x" >>= deI32
    let dy ← getField fields "delta_y" >>= deI32
    return { delta_x := dx, delta_y := dy }
  | _ => .error (.invalidType "other" "struct MouseMoveAction")

/-- Derived `Deserialize` for `MouseButtonAction`. -/
def deMouseButton : Json → Except DeError MouseButtonAction
  | .obj fields => do
    let b ← getField fields "button" >>= deU64
    let p ← getField fields "pressed" >>= deBool
    return { button := b, pressed := p }
  | _ => .error (.invalidType "other" "struct MouseButtonAction")

/-- Derived `Deserialize` for `KeyAction`. -/
def deKeyAction : Json → Except DeError KeyAction
  | .obj fields => do
    let k ← getField fields "key" >>= deString
    let p ← getField fields "pressed" >>= deBool
    return { key := k, pressed := p }
  | _ => .error (.invalidType "other" "struct KeyAction")

/-- Derived `Deserialize` for `UserAction`: externally tagged, so the
input must be a map with exactly one entry whose key is a variant name. -/
def deUserAction : Json → Except DeError UserAction
  | .obj [(k, v)] =>
    if k = "MouseMove" then (deMouseMove v).map .MouseMove
    else if k = "MouseButton" then (deMouseButton v).map .MouseButton
    else if k = "Key" then (deKeyAction v).map .Key
    else .error (.unknownVariant k)
  | .obj _ => .error (.invalidValue "expected map with a single key")
  | _ => .error (.invalidType "other" "enum UserAction")

/-- Derived `Deserialize` for `MacroAction`. -/
def deMacroAction : Json → Except DeError MacroAction
  | .obj fields => do
    let action ← getField fields "action" >>= deUserAction
    let offset ← getField fields "offset" >>= deU64
    return { action := action, offset := offset }
  | _ => .error (.invalidType "other" "struct MacroAction")

/-- The element loop of `Vec<MacroAction>` deserialization. -/
def deActionList : List Json → Except DeError (List MacroAction)
  | [] => .ok []
  | j :: rest => do
    let a ← deMacroAction j
    let as ← deActionList rest
    return a :: as

/-- `Vec<MacroAction>` deserialization. -/
def deActions : Json → Except DeError (List MacroAction)
  | .arr elems => deActionList elems
  | _ => .error (.invalidType "other" "a sequence")

/-- Derived `Deserialize` for `MacroMetadata`. -/
def deMetadata : Json → Except DeError MacroMetadata
  | .obj fields => do
    let e ← getField fields "end" >>= deU64
    let c ← getField fields "cursor_pos" >>= dePairI32
    return { «end» := e, cursor_pos := c }
  | _ => .error (.invalidType "other" "struct MacroMetadata")

/-- `MacroVisitor::visit_seq` (src/macros.rs lines 338-371): repeatedly
reads a `String` element and then, for the keys `actions`/`metadata`, the
next element as the field value; any other key is an `unknown_field`
error.  At the end of the sequence, an unset field is a `missing_field`
error, and a field whose key was the last element (`Some(None)` state)
makes the final `unwrap()` panic.  The two accumulator arguments are the
`actions`/`metadata` locals (`Option<Option<...>>`). -/
def macroVisitSeq : List Json → Option (Option (List MacroAction)) →
    Option (Option MacroMetadata) → Except DeError (List MacroAction × MacroMetadata)
  | [], acts?, md? =>
    match acts? with
    | none => .error (.missingField "actions")
    | some actsInner =>
      match md? with
      | none => .error (.missingField "metadata")
      | some mdInner =>
        match actsInner, mdInner with
        | some acts, some md => .ok (acts, md)
        | _, _ => .error (.panic "called unwrap on a None value")
  | k :: rest, acts?, md? =>
    match deString k with
    | .error e => .error e
    | .ok key =>
      if key = "actions" then
        match rest with
        | [] => macroVisitSeq [] (some none) md?
        | v :: rest2 =>
          match deActions v with
          | .error e => .error e
          | .ok acts => macroVisitSeq rest2 (some (some acts)) md?
      else if key = "metadata" then
        match rest with
        | [] => macroVisitSeq [] acts? (some none)
        | v :: rest2 =>
          match deMetadata v with
          | .error e => .error e
          | .ok md => macroVisitSeq rest2 acts? (some (some md))
      else .error (.unknownField key)

/-- `Deserialize for Macro` under serde_json:
`deserializer.deserialize_struct("Macro", ..., MacroVisitor)` calls
`MacroVisitor::visit_seq` on a JSON array, and `MacroVisitor::visit_map`
on a JSON object — which `MacroVisitor` does not implement, so serde's
default returns `invalid_type: map` built from the visitor's `expecting`
string.  On success a fresh engine is built around the loaded log and
metadata (`start_time` is the `Instant::now()` of the load, modelled by
`now`; flag false; last position `(0,0)`). -/
def deserializeMacro (now : Nat) (j : Json) : Except DeError Macro :=
  match j with
  | .arr elems =>
    (macroVisitSeq elems none none).map fun p =>
      { start_time := now
        is_recording := false
        last_pos := (0, 0)
        actions := p.1
        metadata := p.2 }
  | .obj _ => .error (.invalidType "map" "a macro with actions and metadata")
  | .str _ => .error (.invalidType "string" "a macro with actions and metadata")
  | .num _ => .error (.invalidType "number" "a macro with actions and metadata")
  | .bool _ => .error (.invalidType "boolean" "a macro with actions and metadata")
  | .null => .error (.invalidType "null" "a macro with actions and metadata")

/-- The key/value flattening of a record: the element sequence
`MacroVisitor::visit_seq` would see for a record with these fields. -/
def flattenFields (fields : List (String × Json)) : List Json :=
  fields.flatMap fun kv => [.str kv.1, kv.2]

/-- The pointer deltas recorded in a log, in log order. -/
def deltasOf (l : List MacroAction) : List (Int × Int) :=
  l.filterMap fun a =>
    match a.action with
    | .MouseMove d => some (d.delta_x, d.delta_y)
    | _ => none

/-- Modelled from the spec (§8, pointer delta consistency): the deltas a
scripted sequence of absolute pointer samples must produce, given the
stored last position `p0`: each delta is the componentwise difference
between the new sample and the previous one. -/
def specDeltas (p0 : Int × Int) : List (Int × Int) → List (Int × Int)
  | [] => []
  | p :: rest => (p.1 - p0.1, p.2 - p0.2) :: specDeltas p rest

/-! ## Helper lemmas -/

theorem deltasOf_append (xs ys : List MacroAction) :
    deltasOf (xs ++ ys) = deltasOf xs ++ deltasOf ys :=
  List.filterMap_append ..

theorem Macro.runCallbacks_cons (s : Nat) (e : Nat × DeviceEvent)
    (es : List (Nat × DeviceEvent)) (m : Macro) :
    Macro.runCallbacks s (e :: es) m = Macro.runCallbacks s es (Macro.applyEvent s m e) :=
  rfl

theorem Macro.applyEvent_start_time (s : Nat) (m : Macro) (te : Nat × DeviceEvent) :
    (Macro.applyEvent s m te).start_time = m.start_time := by
  obtain ⟨t, e⟩ := te
  cases e <;> rfl

theorem Macro.runCallbacks_start_time (s : Nat) (es : List (Nat × DeviceEvent)) (m : Macro) :
    (Macro.runCallbacks s es m).start_time = m.start_time := by
  induction es generalizing m with
  | nil => rfl
  | cons e es ih => rw [Macro.runCallbacks_cons, ih, Macro.applyEvent_start_time]

theorem Macro.applyEvent_actions_mem (s : Nat) (m : Macro) (te : Nat × DeviceEvent)
    (a : MacroAction) (ha : a ∈ (Macro.applyEvent s m te).actions) :
    a ∈ m.actions ∨ a.offset = te.1 - s := by
  obtain ⟨t, e⟩ := te
  cases e <;>
    (simp only [Macro.applyEvent, Macro.on_key_up, Macro.on_key_down, Macro.on_mouse_up,
        Macro.on_mouse_down, Macro.on_mouse_move, List.mem_append,
        List.mem_singleton] at ha
     rcases ha with h | h
     · exact Or.inl h
     · subst h; exact Or.inr rfl)

theorem Macro.runCallbacks_actions_mem (s : Nat) (es : List (Nat × DeviceEvent)) (m : Macro)
    (a : MacroAction) (ha : a ∈ (Macro.runCallbacks s es m).actions) :
    a ∈ m.actions ∨ ∃ te ∈ es, a.offset = te.1 - s := by
  induction es generalizing m with
  | nil => exact Or.inl ha
  | cons e es ih =>
    rw [Macro.runCallbacks_cons] at ha
    rcases ih _ ha with h | ⟨te, hte, h⟩
    · rcases Macro.applyEvent_actions_mem s m e a h with h' | h'
      · exact Or.inl h'
      · exact Or.inr ⟨e, List.mem_cons_self e es, h'⟩
    · exact Or.inr ⟨te, List.mem_cons_of_mem _ hte, h⟩

theorem exceptOk_bind {ε α β : Type} (a : α) (f : α → Except ε β) :
    (Except.ok a : Except ε α) >>= f = f a :=
  rfl

theorem exceptError_bind {ε α β : Type} (e : ε) (f : α → Except ε β) :
    (Except.error e : Except ε α) >>= f = Except.error e :=
  rfl

theorem deU64_natCast (n : Nat) : deU64 (.num n) = .ok n := by
  simp [deU64, Int.natCast_nonneg, Int.toNat_natCast]

theorem deUserAction_encode (u : UserAction) : deUserAction (encodeUserAction u) = .ok u := by
  cases u with
  | MouseMove a => rfl
  | MouseButton a =>
    simp [encodeUserAction, deUserAction, encodeMouseButton, deMouseButton, getField,
      List.lookup, deU64_natCast, deBool, exceptOk_bind, Except.map]
  | Key a => rfl

theorem deMacroAction_encode (a : MacroAction) :
    deMacroAction (encodeMacroAction a) = .ok a := by
  simp [encodeMacroAction, deMacroAction, getField, List.lookup, deUserAction_encode,
    deU64_natCast, exceptOk_bind]

theorem deActionList_encode (l : List MacroAction) :
    deActionList (l.map encodeMacroAction) = .ok l := by
  induction l with
  | nil => rfl
  | cons a rest ih =>
    simp [deActionList, deMacroAction_encode, ih, exceptOk_bind]

theorem deActions_encode (l : List MacroAction) : deActions (encodeActions l) = .ok l := by
  simp [encodeActions, deActions, deActionList_encode]

theorem deMetadata_encode (md : MacroMetadata) :
    deMetadata (encodeMetadata md) = .ok md := by
  simp [encodeMetadata, deMetadata, getField, List.lookup, deU64_natCast, dePairI32, deI32,
    exceptOk_bind]

/-- Sanity: the element sequence `visit_seq` was written for (alternating
keys and values) does round-trip — the serializer just never produces
it. -/
theorem visitSeq_roundtrip (acts : List MacroAction) (md : MacroMetadata) :
    macroVisitSeq (flattenFields
        [("actions", encodeActions acts), ("metadata", encodeMetadata md)]) none none =
      .ok (acts, md) := by
  simp [flattenFields, macroVisitSeq, deString, deActions_encode, deMetadata_encode]

/-- An unknown key anywhere in a key/value record makes
`MacroVisitor::visit_seq` fail, whatever the accumulator state. -/
theorem visitSeq_unknown_field_error (k : String) (v : Json)
    (h1 : k ≠ "actions") (h2 : k ≠ "metadata") :
    ∀ (fields : List (String × Json)), (k, v) ∈ fields →
    ∀ acts? md?, ∃ e, macroVisitSeq (flattenFields fields) acts? md? = .error e := by
  intro fields
  induction fields with
  | nil => intro hmem; simp at hmem
  | cons kv rest ih =>
    intro hmem acts? md?
    obtain ⟨k', v'⟩ := kv
    have hflat : flattenFields ((k', v') :: rest) = .str k' :: v' :: flattenFields rest := by
      simp [flattenFields]
    rw [hflat]
    have hmem' : (k, v) = (k', v') ∨ (k, v) ∈ rest := List.mem_cons.mp hmem
    by_cases hk1 : k' = "actions"
    · subst hk1
      have hrest : (k, v) ∈ rest := by
        rcases hmem' with heq | h
        · exact absurd (congrArg Prod.fst heq) h1
        · exact h
      cases hda : deActions v' with
      | error e =>
        exact ⟨e, by simp [macroVisitSeq, deString, hda]⟩
      | ok acts =>
        obtain ⟨e, he⟩ := ih hrest (some (some acts)) md?
        exact ⟨e, by simp [macroVisitSeq, deString, hda, he]⟩
    · by_cases hk2 : k' = "metadata"
      · subst hk2
        have hrest : (k, v) ∈ rest := by
          rcases hmem' with heq | h
          · exact absurd (congrArg Prod.fst heq) h2
          · exact h
        cases hdm : deMetadata v' with
        | error e =>
          exact ⟨e, by simp [macroVisitSeq, deString, hdm]⟩
        | ok md =>
          obtain ⟨e, he⟩ := ih hrest acts? (some (some md))
          exact ⟨e, by simp [macroVisitSeq, deString, hdm, he]⟩
      · exact ⟨.unknownField k', by simp [macroVisitSeq, deString, hk1, hk2]⟩

/-! ## Claims -/

/-- C1: the claim says deserializing the bytes produced by serializing
an engine succeeds and round-trips the log and metadata.  On the code it
fails for EVERY engine: `Serialize for Macro` emits a serde struct,
which serde_json writes as a JSON object, but `MacroVisitor` implements
only `visit_seq`, so loading that object goes through serde's default
`visit_map`, an unconditional `invalid_type` error.  (The code's own doc
comment says the struct "can be deserialized later to replay actions",
so this is a code bug, not spec fiction.) -/
theorem c1_roundtrip_always_fails (now : Nat) (m : Macro) :
    deserializeMacro now (serializeMacro m) =
      .error (.invalidType "map" "a macro with actions and metadata") :=
  rfl

/-- C2: the claim says `metadata.end` equals the elapsed time between
the `record` call and the `stop_recording` call, measured from the same
reference as the logged offsets.  On the code it does not: `record`
stores its session start only in a local (`let start = Instant::now()`),
never in the `start_time` field, and `stop_recording` measures from that
field — i.e. from engine creation.  Concretely: engine created at 0 ms,
`record` at 100 ms, `stop_recording` at 250 ms gives `end = 250`, not
the session duration 150. -/
theorem c2_end_measured_from_creation_not_record :
    (Macro.record 100 (3, 4) (Macro.new 0)).start_time = 0 ∧
    (Macro.stop_recording 250 (Macro.record 100 (3, 4) (Macro.new 0))).metadata.«end» = 250 ∧
    (Macro.stop_recording 250 (Macro.record 100 (3, 4) (Macro.new 0))).metadata.«end» ≠ 250 - 100 := by
  refine ⟨rfl, rfl, ?_⟩
  decide

/-- C4: after a whole recording session (creation, `record`, callback
events, `stop_recording`), the `end` written by `stop_recording` is ≥ 0
and ≥ the offset of every action in the log at the moment of stopping.
Hypotheses: the engine existed before the session started
(`m.start_time ≤ recordT`, true of every real execution) and every
callback fired no later than the stop (`te.1 ≤ stopT`). -/
theorem c4_stop_end_bounds_offsets (m : Macro) (recordT : Nat) (pos : Int × Int)
    (events : List (Nat × DeviceEvent)) (stopT : Nat)
    (hcr : m.start_time ≤ recordT) (hev : ∀ te ∈ events, te.1 ≤ stopT) :
    0 ≤ (Macro.runSession recordT pos events stopT m).metadata.«end» ∧
    ∀ a ∈ (Macro.runSession recordT pos events stopT m).actions,
      a.offset ≤ (Macro.runSession recordT pos events stopT m).metadata.«end» := by
  refine ⟨Nat.zero_le _, fun a ha => ?_⟩
  have hst : (Macro.runCallbacks recordT events (Macro.record recordT pos m)).start_time
      = m.start_time := by
    rw [Macro.runCallbacks_start_time]; rfl
  have hend : (Macro.runSession recordT pos events stopT m).metadata.«end»
      = stopT - m.start_time := by
    unfold Macro.runSession Macro.stop_recording
    simp [Macro.time_since, hst]
  have hact : (Macro.runSession recordT pos events stopT m).actions
      = (Macro.runCallbacks recordT events (Macro.record recordT pos m)).actions := rfl
  rw [hact] at ha
  rcases Macro.runCallbacks_actions_mem _ _ _ _ ha with h | ⟨te, hte, h⟩
  · simp [Macro.record] at h
  · have h1 : te.1 ≤ stopT := hev te hte
    rw [hend, h]
    omega

/-- Witness for C4 at a concrete session: creation at 0, `record` at 10,
one key-down at 15, stop at 20. -/
theorem c4_stop_end_bounds_offsets_witness :
    0 ≤ (Macro.runSession 10 (0, 0) [(15, .keyDown "A")] 20 (Macro.new 0)).metadata.«end» ∧
    ∀ a ∈ (Macro.runSession 10 (0, 0) [(15, .keyDown "A")] 20 (Macro.new 0)).actions,
      a.offset ≤ (Macro.runSession 10 (0, 0) [(15, .keyDown "A")] 20 (Macro.new 0)).metadata.«end» :=
  c4_stop_end_bounds_offsets (Macro.new 0) 10 (0, 0) [(15, .keyDown "A")] 20
    (by decide) (by decide)

/-- C5: every `record` call, whatever the prior state (leftover log,
in-progress recording), leaves the log empty and sets both
`metadata.cursor_pos` and the last-position cell to the position sampled
at that start. -/
theorem c5_record_resets_log_and_cursor (now : Nat) (pos : Int × Int) (m : Macro) :
    (Macro.record now pos m).actions = [] ∧
    (Macro.record now pos m).metadata.cursor_pos = pos ∧
    (Macro.record now pos m).last_pos = pos :=
  ⟨rfl, rfl, rfl⟩

/-- C6: for every sequence of absolute pointer samples delivered to the
pointer-move callback, the recorded deltas are the componentwise
differences of consecutive samples starting from the stored last
position, and the cell is updated to each new sample; in particular,
from `(0,0)` the samples `(5,3)`, `(5,1)` record deltas `(5,3)` then
`(0,-2)`. -/
theorem c6_pointer_delta_consistency :
    (∀ (s : Nat) (m : Macro) (samples : List (Nat × (Int × Int))),
        deltasOf (Macro.runCallbacks s
            (samples.map fun tp => (tp.1, DeviceEvent.mouseMove tp.2)) m).actions =
          deltasOf m.actions ++ specDeltas m.last_pos (samples.map Prod.snd)) ∧
    (∀ (now s : Nat) (pos : Int × Int) (m : Macro),
        (Macro.on_mouse_move now s pos m).last_pos = pos) ∧
    deltasOf (Macro.runCallbacks 0 [(0, .mouseMove (5, 3)), (1, .mouseMove (5, 1))]
        (Macro.record 0 (0, 0) (Macro.new 0))).actions = [(5, 3), (0, -2)] := by
  refine ⟨?_, fun _ _ _ _ => rfl, by decide⟩
  intro s m samples
  induction samples generalizing m with
  | nil => simp [Macro.runCallbacks, specDeltas]
  | cons tp rest ih =>
    rw [List.map_cons, Macro.runCallbacks_cons, ih]
    simp [Macro.applyEvent, Macro.on_mouse_move, deltasOf_append, deltasOf, specDeltas]

/-- C3: `playback` first moves the simulated pointer to the absolute
position in `metadata.cursor_pos`, then loops: if the elapsed sample is
≥ `metadata.end` it terminates, otherwise it dispatches every action
whose offset equals the sample, in log order, and sleeps 500 µs before
the next iteration — i.e. the code's trace coincides with the trace of
the algorithm as the spec words it, for every poll schedule. -/
theorem c3_playback_follows_spec_algorithm (md : MacroMetadata) (actions : List MacroAction)
    (schedule : List Nat) :
    Macro.playbackTrace md actions schedule = specPlaybackTrace md actions schedule := by
  unfold Macro.playbackTrace specPlaybackTrace
  congr 1
  induction schedule with
  | nil => rfl
  | cons s rest ih =>
    simp only [Macro.playbackIters, specPlaybackLoop, ge_iff_le]
    by_cases h : md.«end» ≤ s
    · simp [h]
    · simp [h, ih]

/-- C7: during playback a button action with an identifier outside 1..5
produces only the diagnostic line and is skipped, a key action whose
name `remap` cannot translate is silently skipped, and in both cases
every other dispatchable action of the log is still applied: for the log
[valid key @0, unknown button 9 @1, valid move @2] with end 3, the trace
applies the key and the move and only logs the button. -/
theorem c7_unknown_key_button_skipped :
    (∀ (b : Nat) (pressed : Bool) (offset : Nat), ¬(1 ≤ b ∧ b ≤ 5) →
        Macro.dispatchAction
            { action := .MouseButton { button := b, pressed := pressed }, offset := offset } =
          [.logUnknownButton b]) ∧
    (∀ (key : String) (pressed : Bool) (offset : Nat), remap key = none →
        Macro.dispatchAction
            { action := .Key { key := key, pressed := pressed }, offset := offset } = []) ∧
    Macro.playbackTrace { «end» := 3, cursor_pos := (0, 0) }
        [{ action := .Key { key := "A", pressed := true }, offset := 0 },
         { action := .MouseButton { button := 9, pressed := true }, offset := 1 },
         { action := .MouseMove { delta_x := 3, delta_y := 4 }, offset := 2 }]
        [0, 1, 2, 3] =
      [.moveMouseAbs 0 0, .key .A .Press, .sleepMicros 500, .logUnknownButton 9,
       .sleepMicros 500, .moveMouseRel 3 4, .sleepMicros 500] := by
  refine ⟨?_, ?_, rfl⟩
  · intro b pressed offset h
    have hb : b = 0 ∨ 6 ≤ b := by omega
    rcases hb with rfl | hb
    · rfl
    · obtain ⟨n, rfl⟩ : ∃ n, b = n + 6 := ⟨b - 6, by omega⟩
      rfl
  · intro key pressed offset h
    simp [Macro.dispatchAction, h]

/-- Witness for C7: button identifier 9 is only logged, key name "Towa"
(no `remap` entry) is silently dropped. -/
theorem c7_unknown_key_button_skipped_witness :
    Macro.dispatchAction
        { action := .MouseButton { button := 9, pressed := true }, offset := 1 } =
      [.logUnknownButton 9] ∧
    Macro.dispatchAction
        { action := .Key { key := "Towa", pressed := true }, offset := 0 } = [] :=
  ⟨c7_unknown_key_button_skipped.1 9 true 1 (by decide),
   c7_unknown_key_button_skipped.2.1 "Towa" true 0 rfl⟩

/-- C9: playback can dispatch one recorded action twice: the loop polls
every 500 µs, so two consecutive samples can land in the same elapsed
millisecond (schedule 5, 5, 6 — non-decreasing, steps ≤ 1 ms), the
dispatch criterion is offset = sample, and nothing marks an action as
played; the key action at offset 5 < end 6 is applied twice. -/
theorem c9_action_can_be_dispatched_twice :
    Macro.playbackTrace { «end» := 6, cursor_pos := (0, 0) }
        [{ action := .Key { key := "A", pressed := true }, offset := 5 }] [5, 5, 6] =
      [.moveMouseAbs 0 0, .key .A .Press, .sleepMicros 500, .key .A .Press,
       .sleepMicros 500] ∧
    List.countP (fun e => decide (e = SimEvent.key .A .Press))
        (Macro.playbackTrace { «end» := 6, cursor_pos := (0, 0) }
          [{ action := .Key { key := "A", pressed := true }, offset := 5 }] [5, 5, 6]) = 2 :=
  ⟨rfl, rfl⟩

/-- C10: playback never dispatches an action whose offset is ≥
`metadata.end`: every iteration checks the elapsed sample against `end`
before filtering the log, so every dispatched action has offset < `end`
— in particular one recorded in the same millisecond as the session end
(offset = end) is never replayed, over any poll schedule. -/
theorem c10_no_dispatch_at_or_past_end (md : MacroMetadata) (actions : List MacroAction)
    (schedule : List Nat) (a : MacroAction)
    (ha : a ∈ Macro.playbackDispatches md.«end» actions schedule) :
    a.offset < md.«end» := by
  unfold Macro.playbackDispatches at ha
  induction schedule with
  | nil => simp [Macro.playbackIters] at ha
  | cons s rest ih =>
    rw [Macro.playbackIters] at ha
    by_cases h : md.«end» ≤ s
    · rw [if_pos h] at ha
      simp at ha
    · rw [if_neg h] at ha
      rw [List.flatten_cons, List.mem_append] at ha
      rcases ha with hf | hr
      · rw [List.mem_filter] at hf
        have : a.offset = s := by simpa using hf.2
        omega
      · exact ih hr

/-- C8: `MacroVisitor::visit_seq` rejects, producing no engine: (a) any
record containing a field other than `actions`/`metadata` (an unknown
field is an `unknown_field` error; a malformed value before it is also a
hard error), (b) a record with only `actions` fails with
`missing field metadata`, and (c) a record with only `metadata` fails
with `missing field actions`.  (Stated over the alternating key/value
element sequence `visit_seq` processes; a persisted JSON object fails
even earlier, with the `invalid_type` error of `c1_roundtrip_always_fails`.) -/
theorem c8_deserialize_rejects_unknown_and_missing_fields :
    (∀ (now : Nat) (fields : List (String × Json)) (k : String) (v : Json),
        (k, v) ∈ fields → k ≠ "actions" → k ≠ "metadata" →
        ∃ e, deserializeMacro now (Json.arr (flattenFields fields)) = .error e) ∧
    (∀ (now : Nat) (acts : List MacroAction),
        deserializeMacro now (Json.arr (flattenFields [("actions", encodeActions acts)])) =
          .error (.missingField "metadata")) ∧
    (∀ (now : Nat) (md : MacroMetadata),
        deserializeMacro now (Json.arr (flattenFields [("metadata", encodeMetadata md)])) =
          .error (.missingField "actions")) := by
  refine ⟨?_, ?_, ?_⟩
  · intro now fields k v hmem h1 h2
    obtain ⟨e, he⟩ := visitSeq_unknown_field_error k v h1 h2 fields hmem none none
    exact ⟨e, by simp [deserializeMacro, he, Except.map]⟩
  · intro now acts
    simp [deserializeMacro, flattenFields, macroVisitSeq, deString, deActions_encode,
      Except.map]
  · intro now md
    simp [deserializeMacro, flattenFields, macroVisitSeq, deString, deMetadata_encode,
      Except.map]

/-- Witness for C8: a record with the unknown field `bogus`, a record
with only `actions`, and a record with only `metadata`. -/
theorem c8_deserialize_rejects_witness :
    (∃ e, deserializeMacro 0 (Json.arr (flattenFields [("bogus", Json.null)])) = .error e) ∧
    deserializeMacro 0 (Json.arr (flattenFields [("actions", encodeActions [])])) =
      .error (.missingField "metadata") ∧
    deserializeMacro 0 (Json.arr (flattenFields
        [("metadata", encodeMetadata { «end» := 0, cursor_pos := (0, 0) })])) =
      .error (.missingField "actions") :=
  ⟨c8_deserialize_rejects_unknown_and_missing_fields.1 0 [("bogus", Json.null)] "bogus"
      Json.null (List.mem_singleton.mpr rfl) (by decide) (by decide),
   c8_deserialize_rejects_unknown_and_missing_fields.2.1 0 [],
   c8_deserialize_rejects_unknown_and_missing_fields.2.2 0 _⟩

/-- Witness for C10 at a concrete playback: the key action at offset 5,
dispatched under end 6 by the schedule [5], has offset < 6. -/
theorem c10_no_dispatch_at_or_past_end_witness :
    ({ action := .Key { key := "A", pressed := true }, offset := 5 } : MacroAction).offset <
      ({ «end» := 6, cursor_pos := (0, 0) } : MacroMetadata).«end» :=
  c10_no_dispatch_at_or_past_end { «end» := 6, cursor_pos := (0, 0) }
    [{ action := .Key { key := "A", pressed := true }, offset := 5 }] [5]
    { action := .Key { key := "A", pressed := true }, offset := 5 } (by decide)
